import Mathlib

/-!
Verification of the carrier-vetting workflow orchestration engine
(`backend/services/orchestrator/app.py`) against its specification.

The Python source is shallowly embedded: JSON-like values become the
inductive `Val`, Python dicts become association lists with Python's
update-in-place-or-append assignment semantics, and the collaborator
services (agent registry, agent execution, identity/subscription service,
monitoring and billing collectors) become an explicit `Env` record so that
the endpoints' observable behaviour (result, emitted events, capability
executions) is a pure function of the environment and the request.
-/

namespace Orchestrator

/-- JSON-like values exchanged between nodes, agents and the workflow store.
Numbers are modelled as rationals (Python ints and floats such as the
`min_rating` default `3.5` both embed exactly). -/
inductive Val where
  | null : Val
  | bool : Bool → Val
  | str : String → Val
  | num : Rat → Val
  | arr : List Val → Val
  | obj : List (String × Val) → Val

/-- A Python dict with string keys, as an association list (no duplicate
keys arise from the modelled code paths). -/
abbrev Dict := List (String × Val)

/-- `d.get(k)`: first binding of `k`, if any. -/
def dictGet (d : Dict) (k : String) : Option Val :=
  match d with
  | [] => none
  | (k', v) :: rest => if k' = k then some v else dictGet rest k

/-- `d.get(k, default)`. -/
def dictGetD (d : Dict) (k : String) (v₀ : Val) : Val :=
  (dictGet d k).getD v₀

/-- `d[k] = v`: overwrite the first binding in place, append if absent
(Python dict assignment semantics for duplicate-free dicts). -/
def dictSet (d : Dict) (k : String) (v : Val) : Dict :=
  match d with
  | [] => [(k, v)]
  | (k', v') :: rest => if k' = k then (k, v) :: rest else (k', v') :: dictSet rest k v

/-- Python truthiness of a value (`if prev_result:` etc.). -/
def Val.truthy : Val → Bool
  | .null => false
  | .bool b => b
  | .str s => s ≠ ""
  | .num q => q ≠ 0
  | .arr l => !l.isEmpty
  | .obj d => !d.isEmpty

/-- `k in v` for a dict value (`'carriers' in prev_result`); non-dict
values never report a key. -/
def Val.hasKey : Val → String → Bool
  | .obj d, k => (dictGet d k).isSome
  | _, _ => false

/-- `v[k]` for a dict value, `null` when absent or not a dict. -/
def Val.getKey : Val → String → Val
  | .obj d, k => (dictGet d k).getD .null
  | _, _ => .null

/-- A workflow node: `{"id": ..., "type": ..., "data": {...}}`. -/
structure Node where
  id : String
  type : String
  data : Dict

/-- A workflow edge: `{"source": ..., "target": ...}`. -/
structure Edge where
  source : String
  target : String
deriving DecidableEq

/-- Python `pat in hay` on the character list: `pat` occurs contiguously. -/
def charsContain (pat : List Char) : List Char → Bool
  | [] => pat.isEmpty
  | c :: rest => pat.isPrefixOf (c :: rest) || charsContain pat rest

/-- Python `pat in hay` substring test on strings. -/
def strContains (hay pat : String) : Bool :=
  charsContain pat.data hay.data

/-- Python `s.lower()` (character-wise, as used on ASCII node labels). -/
def pyLower (s : String) : String :=
  String.mk (s.data.map Char.toLower)

/-- Python `s.replace(" ", "_")` (the pattern is a single character, so
replacement is character-wise). -/
def pyReplaceSpace (s : String) : String :=
  String.mk (s.data.map (fun c => if c = ' ' then '_' else c))

/-! ## Graph Compiler (`_topo_order`) -/

/-- The in-degree loop of `_topo_order`: `indeg = {n["id"]: 0 for n in
nodes}` then `for e in edges: if e["target"] in indeg: indeg[t] += 1`. -/
def computeIndeg (nodes : List Node) (edges : List Edge) : List (String × Nat) :=
  edges.foldl
    (fun ind e => ind.map (fun p => if p.1 = e.target then (p.1, p.2 + 1) else p))
    (nodes.map (fun n => (n.id, 0)))

/-- Seed of the order: all zero-in-degree node ids, in node-list order. -/
def seedOf (nodes : List Node) (edges : List Edge) : List String :=
  ((computeIndeg nodes edges).filter (fun p => p.2 = 0)).map Prod.fst

/-- One step of the edge pass: state is `(order, seen)`; append the edge's
target when the source has been placed and the target has not. -/
def topoStep (st : List String × List String) (e : Edge) : List String × List String :=
  if e.source ∈ st.2 ∧ e.target ∉ st.2 then (st.1 ++ [e.target], st.2 ++ [e.target]) else st

/-- `_topo_order(nodes, edges)`: seed with zero-in-degree nodes, run the
single edge pass, then append every node the pass never reached, in
node-list order. -/
def topoOrder (nodes : List Node) (edges : List Edge) : List String :=
  (edges.foldl topoStep (seedOf nodes edges, seedOf nodes edges)).1 ++
    (nodes.filter
      (fun n => n.id ∉ (edges.foldl topoStep (seedOf nodes edges, seedOf nodes edges)).2)).map
      Node.id

/-! ## Environment: collaborator services of the orchestrator -/

/-- The identity service's answer to
`GET /tenants/{tenant}/subscriptions`: an HTTP status and the `agents`
list of the JSON body. -/
structure SubsResp where
  status : Nat
  agents : List String

/-- The world outside the request handlers: the populated capability
registry, the behaviour of each agent's `run` (success output or raised
exception text), the identity service (`Except.error` is a transport
exception, i.e. the collaborator is unreachable), an opaque wall-clock
duration measurement, and the health of the fire-and-forget collectors. -/
structure Env where
  registered : List String
  runAgent : String → Dict → Except String Val
  subscriptions : String → Except String SubsResp
  durationMs : Nat
  monitoringUp : Bool
  billingUp : Bool

/-- `_is_agent_allowed`: query the identity service; an HTTP error status
yields `False`, otherwise membership of the agent id (or the wildcard) in
the subscription's `agents`; a transport exception propagates
(`Except.error`). -/
def isAgentAllowed (env : Env) (tenantId agentId : String) : Except String Bool :=
  match env.subscriptions tenantId with
  | .error m => .error m
  | .ok r =>
    if 400 ≤ r.status then .ok false
    else .ok ("*" ∈ r.agents ∨ agentId ∈ r.agents)

/-! ## Node Dispatcher: agent resolution and input shaping -/

/-- The `custom`-node resolution chain of `run_workflow`: substring-match
the node id and the normalized label against the known agent ids, in
source order. -/
def resolveCustomAgent (nid nodeLabel : String) : Option String :=
  if strContains nid "carrier_outreach" || strContains nodeLabel "carrier_outreach" then some "carrier_outreach"
  else if strContains nid "carrier_search" || strContains nodeLabel "carrier_search" then some "carrier_search"
  else if strContains nid "carrier_vetting" || strContains nodeLabel "carrier_vetting" then some "carrier_vetting"
  else if strContains nid "api_agent" || strContains nodeLabel "api_agent" then some "api_agent"
  else if strContains nid "data_transformer" || strContains nodeLabel "data_transformer" then some "data_transformer"
  else if strContains nid "freight_insights" || strContains nodeLabel "freight_insights" then some "freight_insights"
  else if strContains nid "inventory_management" || strContains nodeLabel "inventory_management" then some "inventory_management"
  else if strContains nid "freight_procurement" || strContains nodeLabel "freight_procurement" then some "freight_procurement"
  else if strContains nid "transportation_expert" || strContains nodeLabel "transportation_expert" then some "transportation_expert"
  else if strContains nid "freight_audit_pay" || strContains nodeLabel "freight_audit_pay" then some "freight_audit_pay"
  else if strContains nid "demand_forecasting" || strContains nodeLabel "demand_forecasting" then some "demand_forecasting"
  else if strContains nid "route_optimization" || strContains nodeLabel "route_optimization" then some "route_optimization"
  else if strContains nid "real_time_tracking" || strContains nodeLabel "real_time_tracking" then some "real_time_tracking"
  else if strContains nid "warehouse_automation" || strContains nodeLabel "warehouse_automation" then some "warehouse_automation"
  else if strContains nid "o365_lead_extractor" || strContains nodeLabel "o365_lead_extractor" then some "o365_lead_extractor"
  else if strContains nid "custom_agent" || strContains nodeLabel "custom_agent" then some "custom_agent"
  else none

/-- Agent resolution for a non-`trigger`, non-`output` node: `custom`
nodes go through the label/id chain; otherwise the direct type mapping
(`api_agent`, `carrier_outreach`, `carrier_vetting`, `carrier_search`),
anything else is an unknown node type (skipped). -/
def resolveAgentId (nid ntype : String) (data : Dict) : Option String :=
  if ntype = "custom" then
    let nodeLabel := pyReplaceSpace (pyLower (match dictGet data "label" with
      | some (.str s) => s
      | _ => ""))
    resolveCustomAgent nid nodeLabel
  else if ntype = "api_agent" then some "api_agent"
  else if ntype = "carrier_outreach" then some "carrier_outreach"
  else if ntype = "carrier_vetting" then some "carrier_vetting"
  else if ntype = "carrier_search" then some "carrier_search"
  else none

/-- The `data_transformer` branch's `input_data` extraction from the
previous result. -/
def transformerInput (prevResult : Option Val) : Val :=
  match prevResult with
  | none => .obj []
  | some pd =>
    if pd.truthy then
      if pd.hasKey "carriers" then pd
      else if (pd.getKey "output").hasKey "carriers" then pd.getKey "output"
      else pd
    else .obj []

/-- Input-payload shaping per agent family (`run_workflow`): carrier
search nests under `lead`, carrier vetting and outreach pick named fields
with defaults, the data transformer wraps the previous result, everything
else passes the node's `data` straight through. -/
def buildInput (agentId : String) (data : Dict) (prevResult : Option Val) : Dict :=
  if agentId = "carrier_search" then
    [("lead", .obj
        [("source", dictGetD data "source" (.str "")),
         ("destination", dictGetD data "destination" (.str "")),
         ("material", dictGetD data "material" (.str "")),
         ("quantity", dictGetD data "quantity" (.str "")),
         ("pickupDate", dictGetD data "pickup_date" (.str "")),
         ("pickupTime", dictGetD data "pickup_time" (.str ""))]),
     ("top_n", dictGetD data "top_n" (.num 5)),
     ("min_rating", dictGetD data "min_rating" (.num 3.5))]
  else if agentId = "carrier_vetting" then
    [("dot", dictGetD data "dot" (.str "")),
     ("mock", dictGetD data "mock" (.bool false))]
  else if agentId = "carrier_outreach" then
    [("carrier_phone", dictGetD data "carrier_phone" (dictGetD data "contact_phone" (.str ""))),
     ("contact_phone", dictGetD data "carrier_phone" (dictGetD data "contact_phone" (.str ""))),
     ("contact_name", dictGetD data "contact_name" (.str "")),
     ("carrier_name", dictGetD data "carrier_name" (.str "")),
     ("route", dictGetD data "route" (.str "")),
     ("volume", dictGetD data "volume" (.str "")),
     ("target_rate", dictGetD data "target_rate" (.str "")),
     ("market_rate", dictGetD data "market_rate" (.str "")),
     ("expected_price", dictGetD data "expected_price" (.str "")),
     ("max_rate", dictGetD data "max_rate" (.str "")),
     ("initiate_call", dictGetD data "initiate_call" (.bool true)),
     ("elevenlabs_agent_id", dictGetD data "elevenlabs_agent_id" (.str ""))]
  else if agentId = "data_transformer" then
    [("input_data", transformerInput prevResult), ("config", .obj data)]
  else
    data

/-! ## Node Dispatcher: the run loop -/

/-- Observable state of one workflow run: the `results` mapping (node id
to recorded output) and the log of capability invocations performed, as
(node id, agent id) pairs. -/
structure RunState where
  results : Dict
  calls : List (String × String)

/-- `{n["id"]: n for n in nodes}.get(nid)`: dict-comprehension lookup,
where a later duplicate id wins. -/
def idToNode (nodes : List Node) (nid : String) : Option Node :=
  nodes.foldl (fun acc n => if n.id = nid then some n else acc) none

/-- Output recorded for a `trigger` node: `{"payload": data.get("payload")}`. -/
def triggerOutput (data : Dict) : Val :=
  .obj [("payload", dictGetD data "payload" .null)]

/-- Output recorded for an `output` node: the source of the last listed
edge targeting it and that source's recorded output (Python `None`
becomes `null`). -/
def outputNodeOutput (prevIds : List String) (prevResult : Option Val) : Val :=
  .obj [("from", match prevIds.getLast? with | some p => .str p | none => .null),
        ("value", prevResult.getD .null)]

/-- `prev_ids`: the sources of every edge targeting `nid`, in edge-list
order. -/
def prevIdsOf (edges : List Edge) (nid : String) : List String :=
  (edges.filter (fun e => e.target = nid)).map Edge.source

/-- `prev_result`: the recorded output of the source of the last listed
edge targeting `nid`, if any. -/
def prevResultOf (results : Dict) (edges : List Edge) (nid : String) : Option Val :=
  match (prevIdsOf edges nid).getLast? with
  | some p => dictGet results p
  | none => none

/-- One iteration of the `run_workflow` node loop for the id `nid`.
Returns the state after the iteration and, when the node's capability
invocation failed, the `(node id, message)` of the aborting
`HTTPException`.  Unknown ids, `trigger`/`output` nodes and unresolvable
nodes never invoke a capability; a registry miss or an agent exception is
fatal; the dead `slack`/`gmail` tool branch of the source references an
undefined `workflow_id` variable and so would always raise. -/
def execNode (env : Env) (nodes : List Node) (edges : List Edge)
    (st : RunState) (nid : String) : RunState × Option (String × String) :=
  match idToNode nodes nid with
  | none => (st, none)
  | some node =>
    let data := node.data
    let prevIds := prevIdsOf edges nid
    let prevResult := prevResultOf st.results edges nid
    if node.type = "trigger" then
      ({ st with results := dictSet st.results nid (triggerOutput data) }, none)
    else if node.type = "output" then
      ({ st with results := dictSet st.results nid (outputNodeOutput prevIds prevResult) }, none)
    else
      match resolveAgentId nid node.type data with
      | none => (st, none)
      | some agentId =>
        let base := buildInput agentId data prevResult
        let inputPayload :=
          match prevResult with
          | some pv => if agentId ≠ "data_transformer" then dictSet base "prev" pv else base
          | none => base
        if agentId = "slack" ∨ agentId = "gmail" then
          (st, some (nid, "name workflow_id is not defined"))
        else if agentId ∈ env.registered then
          let st' : RunState := { st with calls := st.calls ++ [(nid, agentId)] }
          match env.runAgent agentId inputPayload with
          | .ok out => ({ st' with results := dictSet st'.results nid out }, none)
          | .error msg => (st', some (nid, msg))
        else
          (st, some (nid, "Agent " ++ agentId ++ " not found"))

/-- Drive the node loop over an execution order, stopping at the first
node failure (the aborting `HTTPException`). -/
def runNodes (env : Env) (nodes : List Node) (edges : List Edge) :
    List String → RunState → RunState × Option (String × String)
  | [], st => (st, none)
  | nid :: rest, st =>
    match execNode env nodes edges st nid with
    | (st', none) => runNodes env nodes edges rest st'
    | (st', some f) => (st', some f)

/-- The initial run state. -/
def initState : RunState := ⟨[], []⟩

/-- `run_workflow` on an already-loaded workflow: compile the order with
`_topo_order` and drive the dispatcher.  The second component is `none`
for a successful run (HTTP 200 with the results mapping) and
`some (nid, msg)` for the aborting node failure (HTTP 500).  Note the
handler performs no entitlement check: `env.subscriptions` is never
consulted on this path. -/
def runWorkflow (env : Env) (nodes : List Node) (edges : List Edge) :
    RunState × Option (String × String) :=
  runNodes env nodes edges (topoOrder nodes edges) initState

/-! ## Invocation Gateway (`POST /invoke`) -/

/-- The HTTP-visible outcome of a direct invocation. -/
inductive InvokeResult where
  | notFound (agentId : String)
  | permissionDenied
  | executionFailed (msg : String)
  | internalError (msg : String)
  | success (output : Val) (durationMs : Nat)

/-- The usage/metering event assembled as `metrics_data` and posted to the
monitoring collector (the LLM cost/token extras are optional fields not
needed by any claim). -/
structure MeterEvent where
  agentId : String
  tenantId : String
  userId : String
  durationMs : Nat
  success : Bool
  errorMessage : Option String

/-- Everything observable about one direct invocation: the HTTP result,
the metering events handed to `_send_metrics` and `_meter_usage`, which of
them the collectors actually received (their own failures are swallowed),
and the agent executions that took place. -/
structure InvokeObs where
  result : InvokeResult
  metricsEmitted : List MeterEvent
  meterEmitted : List (String × String × Nat)
  metricsDelivered : List MeterEvent
  meterDelivered : List (String × String × Nat)
  executed : List String

/-- The `invoke` handler: registry lookup (404 on a miss), then the
entitlement check (`403` on denial; a transport exception from the
identity service is unhandled and surfaces as a 500 internal error), then
agent execution.  On an agent exception the handler raises
`HTTPException(500)` immediately — before `metrics_data` is built — so no
metering event is emitted on the failure path; on success the events go
out and the collectors' health cannot influence the returned response
(the per-user ElevenLabs config resolution and the best-effort
carrier-outreach call log, both swallowed, do not affect any observable
modelled here). -/
def invoke (env : Env) (tenantId userId agentId : String) (input : Dict) : InvokeObs :=
  if agentId ∉ env.registered then
    { result := .notFound agentId, metricsEmitted := [], meterEmitted := [],
      metricsDelivered := [], meterDelivered := [], executed := [] }
  else
    match isAgentAllowed env tenantId agentId with
    | .error m =>
      { result := .internalError m, metricsEmitted := [], meterEmitted := [],
        metricsDelivered := [], meterDelivered := [], executed := [] }
    | .ok false =>
      { result := .permissionDenied, metricsEmitted := [], meterEmitted := [],
        metricsDelivered := [], meterDelivered := [], executed := [] }
    | .ok true =>
      match env.runAgent agentId input with
      | .error msg =>
        { result := .executionFailed msg, metricsEmitted := [], meterEmitted := [],
          metricsDelivered := [], meterDelivered := [], executed := [agentId] }
      | .ok out =>
        let ev : MeterEvent :=
          { agentId := agentId, tenantId := tenantId, userId := userId,
            durationMs := env.durationMs, success := true, errorMessage := none }
        { result := .success out env.durationMs
          metricsEmitted := [ev]
          meterEmitted := [(tenantId, agentId, env.durationMs)]
          metricsDelivered := if env.monitoringUp then [ev] else []
          meterDelivered := if env.billingUp then [(tenantId, agentId, env.durationMs)] else []
          executed := [agentId] }

/-! ## Workflow Store (CRUD on `/app/data/workflows/{tenant}/{id}.json`) -/

/-- The persisted store: one JSON object per (tenant id, workflow id). -/
def WfStore := String → String → Option Dict

/-- `_save_workflow`: full overwrite of the file for that tenant and id. -/
def saveWorkflow (store : WfStore) (tenantId wfId : String) (data : Dict) : WfStore :=
  fun t i => if t = tenantId ∧ i = wfId then some data else store t i

/-- `_load_workflow` / `GET /workflows/{wf_id}` (`none` is the 404 path). -/
def getWorkflow (store : WfStore) (tenantId wfId : String) : Option Dict :=
  store tenantId wfId

/-- `PUT /workflows/{wf_id}`: copy the payload, then stamp `id`,
`tenant_id` and `updated_at` (the server clock is the `now` argument), and
overwrite the stored object. -/
def updateWorkflow (store : WfStore) (tenantId wfId : String) (payload : Dict)
    (now : String) : WfStore :=
  saveWorkflow store tenantId wfId
    (dictSet (dictSet (dictSet payload "id" (.str wfId)) "tenant_id" (.str tenantId))
      "updated_at" (.str now))

/-! ## Auxiliary predicates used to state the claims -/

/-- Reachability along edges in at most `fuel` steps (at least one step). -/
def reachB (edges : List Edge) : Nat → String → String → Bool
  | 0, _, _ => false
  | fuel + 1, a, b =>
    edges.any (fun e => e.source = a && (e.target = b || reachB edges fuel e.target b))

/-- Every id mentioned by an edge. -/
def mentionedIds (edges : List Edge) : List String :=
  edges.map Edge.source ++ edges.map Edge.target

/-- Decidable acyclicity of the edge set: no id reaches itself. -/
def acyclicB (edges : List Edge) : Bool :=
  !(mentionedIds edges).any (fun x => reachB edges (edges.length + 1) x x)

/-- The edge list is scanned in an order compatible with placement: each
edge's source is already placed (a member of `placed`, which starts at the
seed and grows by each scanned edge's target). -/
def progressiveB (placed : List String) : List Edge → Bool
  | [] => true
  | e :: es => decide (e.source ∈ placed) && progressiveB (placed ++ [e.target]) es

/-! ## Concrete fixtures: the three-node scenario of §8 and environments -/

/-- The scenario workflow's nodes: trigger `t1`, custom `carrier_vetting`
node `n1`, output `o1`. -/
def sNodes : List Node :=
  [⟨"t1", "trigger", [("payload", .obj [("x", .num 1)])]⟩,
   ⟨"n1", "custom", [("label", .str "carrier_vetting"), ("dot", .str "125550")]⟩,
   ⟨"o1", "output", []⟩]

/-- The scenario workflow's edges: `t1 → n1 → o1`. -/
def sEdges : List Edge := [⟨"t1", "n1"⟩, ⟨"n1", "o1"⟩]

/-- An environment whose identity service answers 200 with an empty
`agents` list: the tenant is entitled to nothing. -/
def envDeny : Env :=
  { registered := ["carrier_vetting", "carrier_outreach", "carrier_search"]
    runAgent := fun _ _ => .ok (.str "vetted")
    subscriptions := fun _ => .ok ⟨200, []⟩
    durationMs := 7
    monitoringUp := true
    billingUp := true }

/-- An environment where the agent itself raises. -/
def envAgentFails : Env :=
  { registered := ["carrier_vetting", "carrier_outreach", "carrier_search"]
    runAgent := fun _ _ => .error "boom"
    subscriptions := fun _ => .ok ⟨200, ["*"]⟩
    durationMs := 7
    monitoringUp := true
    billingUp := true }

/-- An environment whose identity service is unreachable (the HTTP client
raises a transport exception). -/
def envUnreachable : Env :=
  { registered := ["carrier_vetting", "carrier_outreach", "carrier_search"]
    runAgent := fun _ _ => .ok (.str "vetted")
    subscriptions := fun _ => .error "connection refused"
    durationMs := 7
    monitoringUp := true
    billingUp := true }

/-- An environment whose identity service answers with a 503 error. -/
def envSubs503 : Env :=
  { registered := ["carrier_vetting", "carrier_outreach", "carrier_search"]
    runAgent := fun _ _ => .ok (.str "vetted")
    subscriptions := fun _ => .ok ⟨503, []⟩
    durationMs := 7
    monitoringUp := true
    billingUp := true }

/-! ## Claim C7: metering health never alters the invocation's result -/

/-- Claim C7: for every direct invocation, the returned result (output and
usage metadata included) and even the events handed to the emitters are
identical whatever the health of the monitoring and billing collectors;
emission failure never turns the invocation into an error. -/
theorem invoke_independent_of_collector_health (env : Env) (m b : Bool)
    (tenantId userId agentId : String) (input : Dict) :
    (invoke { env with monitoringUp := m, billingUp := b } tenantId userId agentId input).result
      = (invoke env tenantId userId agentId input).result
    ∧ (invoke { env with monitoringUp := m, billingUp := b } tenantId userId agentId input).metricsEmitted
      = (invoke env tenantId userId agentId input).metricsEmitted
    ∧ (invoke { env with monitoringUp := m, billingUp := b } tenantId userId agentId input).meterEmitted
      = (invoke env tenantId userId agentId input).meterEmitted := by
  simp only [invoke, isAgentAllowed]
  split
  · exact ⟨rfl, rfl, rfl⟩
  · split
    · exact ⟨rfl, rfl, rfl⟩
    · exact ⟨rfl, rfl, rfl⟩
    · split
      · exact ⟨rfl, rfl, rfl⟩
      · exact ⟨rfl, rfl, rfl⟩

/-! ## Claim C3: is a metering event emitted on the failure path? -/

/-- Claim C3 (code bug): when the capability execution fails, the handler
raises before `metrics_data` is ever built, so no usage/metering event is
emitted to either collector, although the event's `success`/`error`
fields (and the dead `success = False` assignment in the handler) show the
failure path was meant to emit too.  Concretely: an entitled invocation of
`carrier_vetting` whose agent raises returns the 500 error and emits
nothing. -/
theorem invoke_no_metering_on_failure :
    (invoke envAgentFails "t0" "u0" "carrier_vetting" [("dot", .str "125550")]).result
      = .executionFailed "boom"
    ∧ (invoke envAgentFails "t0" "u0" "carrier_vetting" [("dot", .str "125550")]).metricsEmitted = []
    ∧ (invoke envAgentFails "t0" "u0" "carrier_vetting" [("dot", .str "125550")]).meterEmitted = []
    ∧ (invoke envAgentFails "t0" "u0" "carrier_vetting" [("dot", .str "125550")]).executed
      = ["carrier_vetting"] :=
  ⟨rfl, rfl, rfl, rfl⟩

/-! ## Claim C9: entitlement check fail-closed behaviour -/

/-- Claim C9 (amended): for a registered capability, an entitlement
collaborator answering with an HTTP error status is treated as denial —
the caller gets `PermissionDenied` and the capability is never executed;
but when the collaborator is unreachable (transport exception) the
invocation surfaces as an internal error, not a permission failure — the
capability is still never executed and the call never succeeds. -/
theorem entitlement_fail_closed_amended (env : Env) (tenantId userId agentId : String)
    (input : Dict) (hreg : agentId ∈ env.registered) :
    (∀ r : SubsResp, env.subscriptions tenantId = .ok r → 400 ≤ r.status →
      invoke env tenantId userId agentId input =
        ⟨.permissionDenied, [], [], [], [], []⟩)
    ∧ (∀ m : String, env.subscriptions tenantId = .error m →
      invoke env tenantId userId agentId input =
        ⟨.internalError m, [], [], [], [], []⟩) := by
  constructor
  · intro r hr hstatus
    simp only [invoke, isAgentAllowed, hreg, not_true_eq_false, if_false, hr,
      if_pos hstatus]
  · intro m hm
    simp only [invoke, isAgentAllowed, hreg, not_true_eq_false, if_false, hm]

/-- Witness for C9's amended theorem at a concrete environment whose
identity service answers 503: the invocation is denied and nothing runs. -/
theorem entitlement_fail_closed_amended_witness :
    invoke envSubs503 "t0" "u0" "carrier_vetting" [] =
      ⟨.permissionDenied, [], [], [], [], []⟩ :=
  (entitlement_fail_closed_amended envSubs503 "t0" "u0" "carrier_vetting" []
    (by decide)).1 ⟨503, []⟩ rfl (by decide)

/-- Counterexample to C9 as stated: with the identity service unreachable,
the caller receives an internal error, not a permission failure (though
the capability is indeed never executed). -/
theorem entitlement_unreachable_counterexample :
    (invoke envUnreachable "t0" "u0" "carrier_vetting" []).result
      = .internalError "connection refused"
    ∧ (invoke envUnreachable "t0" "u0" "carrier_vetting" []).result ≠ .permissionDenied
    ∧ (invoke envUnreachable "t0" "u0" "carrier_vetting" []).executed = [] :=
  ⟨rfl, fun h => InvokeResult.noConfusion h, rfl⟩

/-! ## Claim C1: do workflow runs share the Invocation Gateway's
entitlement semantics? -/

theorem execNode_env_agnostic (env env' : Env) (hreg : env'.registered = env.registered)
    (hrun : env'.runAgent = env.runAgent) (nodes : List Node) (edges : List Edge)
    (st : RunState) (nid : String) :
    execNode env' nodes edges st nid = execNode env nodes edges st nid := by
  simp only [execNode, hreg, hrun]

theorem runNodes_env_agnostic (env env' : Env) (hreg : env'.registered = env.registered)
    (hrun : env'.runAgent = env.runAgent) (nodes : List Node) (edges : List Edge)
    (order : List String) (st : RunState) :
    runNodes env' nodes edges order st = runNodes env nodes edges order st := by
  induction order generalizing st with
  | nil => rfl
  | cons nid rest ih =>
    simp only [runNodes, execNode_env_agnostic env env' hreg hrun nodes edges st nid]
    cases execNode env nodes edges st nid with
    | mk st' f =>
      cases f with
      | none => exact ih st'
      | some fp => rfl

/-- Claim C1 (amended): the entitlement check exists only on the direct
invocation path.  A workflow run's result is entirely independent of the
identity service (`run_workflow` never queries subscriptions), while a
direct invocation of an unentitled capability is rejected with
`PermissionDenied` before execution; consequently the three-node scenario
workflow, run for a tenant entitled to nothing, still executes `n1` and
surfaces as a successful run. -/
theorem run_workflow_bypasses_entitlement :
    (∀ (env : Env) (s : String → Except String SubsResp) (nodes : List Node)
      (edges : List Edge),
      runWorkflow { env with subscriptions := s } nodes edges = runWorkflow env nodes edges)
    ∧ (∀ (env : Env) (tenantId userId agentId : String) (input : Dict),
        agentId ∈ env.registered → isAgentAllowed env tenantId agentId = .ok false →
        (invoke env tenantId userId agentId input).result = .permissionDenied
        ∧ (invoke env tenantId userId agentId input).executed = [])
    ∧ (runWorkflow envDeny sNodes sEdges).2 = none
    ∧ ("n1", "carrier_vetting") ∈ (runWorkflow envDeny sNodes sEdges).1.calls := by
  refine ⟨fun env s nodes edges => ?_, fun env t u aid input hreg hallow => ?_,
    rfl, by decide⟩
  · exact runNodes_env_agnostic env { env with subscriptions := s } rfl rfl nodes edges _ _
  · have hni : ¬ aid ∉ env.registered := fun hc => hc hreg
    simp [invoke, if_neg hni, hallow]

/-- Witness for C1's amended theorem: for the unentitled tenant of
`envDeny`, a direct invocation of `carrier_vetting` is denied without
execution. -/
theorem run_workflow_bypasses_entitlement_witness :
    (invoke envDeny "t0" "u0" "carrier_vetting" []).result = .permissionDenied
    ∧ (invoke envDeny "t0" "u0" "carrier_vetting" []).executed = [] :=
  run_workflow_bypasses_entitlement.2.1 envDeny "t0" "u0" "carrier_vetting" []
    (by decide) rfl

/-- Counterexample to C1 as stated: the tenant of `envDeny` is entitled to
nothing (`isAgentAllowed` answers `false` for `carrier_vetting`), yet the
scenario workflow run executes `n1`'s capability and completes as a
successful run (result mapping for all three nodes, no failure) instead of
yielding `PermissionDenied` before `n1` executes. -/
theorem run_workflow_entitlement_counterexample :
    isAgentAllowed envDeny "t0" "carrier_vetting" = .ok false
    ∧ runWorkflow envDeny sNodes sEdges =
      (⟨[("t1", .obj [("payload", .obj [("x", .num 1)])]),
         ("n1", .str "vetted"),
         ("o1", .obj [("from", .str "n1"), ("value", .str "vetted")])],
        [("n1", "carrier_vetting")]⟩, none) :=
  ⟨rfl, rfl⟩

/-! ## Claim C4: workflow replace/get round trip -/

theorem dictGet_dictSet_self (d : Dict) (k : String) (v : Val) :
    dictGet (dictSet d k v) k = some v := by
  induction d with
  | nil => simp [dictSet, dictGet]
  | cons p rest ih =>
    rcases p with ⟨k0, v0⟩
    by_cases h : k0 = k
    · simp [dictSet, dictGet, h]
    · simp [dictSet, dictGet, h, ih]

theorem dictGet_dictSet_ne (d : Dict) (k k' : String) (v : Val) (h : k' ≠ k) :
    dictGet (dictSet d k v) k' = dictGet d k' := by
  induction d with
  | nil => simp [dictSet, dictGet, Ne.symm h]
  | cons p rest ih =>
    rcases p with ⟨k0, v0⟩
    by_cases hp : k0 = k
    · subst hp
      simp [dictSet, dictGet, Ne.symm h]
    · simp [dictSet, dictGet, hp, ih]

/-- Claim C4 (amended): `ReplaceWorkflow(t, id, D)` followed by
`GetWorkflow(t, id)` returns the stored object, which agrees with `D` on
every key other than the three server-stamped fields `updated_at`, `id`
and `tenant_id`; those three are forced to the server clock, the path id
and the requesting tenant. -/
theorem workflow_roundtrip_stamps_fields (store : WfStore) (tenantId wfId : String)
    (payload : Dict) (now : String) :
    getWorkflow (updateWorkflow store tenantId wfId payload now) tenantId wfId =
      some (dictSet (dictSet (dictSet payload "id" (.str wfId)) "tenant_id" (.str tenantId))
        "updated_at" (.str now))
    ∧ (∀ r : Dict,
        getWorkflow (updateWorkflow store tenantId wfId payload now) tenantId wfId = some r →
        dictGet r "id" = some (.str wfId)
        ∧ dictGet r "tenant_id" = some (.str tenantId)
        ∧ dictGet r "updated_at" = some (.str now)
        ∧ ∀ k, k ≠ "id" → k ≠ "tenant_id" → k ≠ "updated_at" →
            dictGet r k = dictGet payload k) := by
  have hstore : getWorkflow (updateWorkflow store tenantId wfId payload now) tenantId wfId =
      some (dictSet (dictSet (dictSet payload "id" (.str wfId)) "tenant_id" (.str tenantId))
        "updated_at" (.str now)) := by
    simp [getWorkflow, updateWorkflow, saveWorkflow]
  refine ⟨hstore, fun r hr => ?_⟩
  rw [hstore] at hr
  cases hr
  refine ⟨?_, ?_, dictGet_dictSet_self _ _ _, fun k hk1 hk2 hk3 => ?_⟩
  · rw [dictGet_dictSet_ne _ _ _ _ (by decide), dictGet_dictSet_ne _ _ _ _ (by decide)]
    exact dictGet_dictSet_self _ _ _
  · rw [dictGet_dictSet_ne _ _ _ _ (by decide)]
    exact dictGet_dictSet_self _ _ _
  · rw [dictGet_dictSet_ne _ _ _ _ hk3, dictGet_dictSet_ne _ _ _ _ hk2,
      dictGet_dictSet_ne _ _ _ _ hk1]

/-- Witness for C4's amended theorem at a concrete store and payload: the
`name` key survives the round trip unchanged while `id` is restamped. -/
theorem workflow_roundtrip_stamps_fields_witness :
    dictGet (dictSet (dictSet (dictSet [("name", Val.str "x"), ("id", Val.str "old")]
        "id" (.str "w1")) "tenant_id" (.str "tA")) "updated_at" (.str "2026-01-01T00:00:00Z"))
      "name" = dictGet [("name", Val.str "x"), ("id", Val.str "old")] "name" :=
  ((workflow_roundtrip_stamps_fields (fun _ _ => none) "tA" "w1"
      [("name", Val.str "x"), ("id", Val.str "old")] "2026-01-01T00:00:00Z").2 _
    rfl).2.2.2 "name" (by decide) (by decide) (by decide)

/-- Counterexample to C4 as stated: a payload whose `id` field is
`"other"` comes back with `id = "w1"` — a difference beyond the
server-stamped `updatedAt`.  (The same restamping applies to
`tenant_id`.) -/
theorem workflow_roundtrip_counterexample :
    getWorkflow (updateWorkflow (fun _ _ => none) "tA" "w1" [("id", Val.str "other")]
        "2026-01-01T00:00:00Z") "tA" "w1" =
      some [("id", Val.str "w1"), ("tenant_id", Val.str "tA"),
            ("updated_at", Val.str "2026-01-01T00:00:00Z")]
    ∧ dictGet [("id", Val.str "other")] "id" = some (Val.str "other")
    ∧ ("w1" : String) ≠ "other" ∧ ("id" : String) ≠ "updated_at" :=
  ⟨rfl, rfl, by decide, by decide⟩

/-! ## Structural facts about the node loop -/

theorem idToNode_fold {nid : String} {node : Node} :
    ∀ (nodes : List Node) (acc : Option Node),
      nodes.foldl (fun acc n => if n.id = nid then some n else acc) acc = some node →
      acc = some node ∨ (node ∈ nodes ∧ node.id = nid) := by
  intro nodes
  induction nodes with
  | nil => intro acc h; exact .inl h
  | cons n rest ih =>
    intro acc h
    rw [List.foldl_cons] at h
    rcases ih (if n.id = nid then some n else acc) h with h' | h'
    · by_cases hn : n.id = nid
      · rw [if_pos hn] at h'
        cases h'
        exact .inr ⟨List.mem_cons_self _ _, hn⟩
      · rw [if_neg hn] at h'
        exact .inl h'
    · exact .inr ⟨List.mem_cons_of_mem _ h'.1, h'.2⟩

theorem idToNode_some {nodes : List Node} {nid : String} {node : Node}
    (h : idToNode nodes nid = some node) : node ∈ nodes ∧ node.id = nid := by
  rcases idToNode_fold nodes none h with h' | h'
  · cases h'
  · exact h'

theorem dictSet_keys {d : Dict} {k x : String} {v : Val}
    (h : x ∈ (dictSet d k v).map Prod.fst) : x = k ∨ x ∈ d.map Prod.fst := by
  induction d with
  | nil => simpa [dictSet] using h
  | cons p rest ih =>
    rcases p with ⟨k0, v0⟩
    by_cases hp : k0 = k
    · subst hp
      simpa [dictSet] using h
    · rw [dictSet, if_neg hp] at h
      simp only [List.map_cons, List.mem_cons] at h
      rcases h with h | h
      · exact .inr (by simp [h])
      · rcases ih h with h' | h'
        · exact .inl h'
        · exact .inr (by simp [h'])

/-- Everything the other run-level proofs need about a single node step:
how the call log can change, how the results mapping can change, and what
a failure carries. -/
theorem execNode_shape {env : Env} {nodes : List Node} {edges : List Edge}
    {st : RunState} {nid : String} {st' : RunState} {f : Option (String × String)}
    (h : execNode env nodes edges st nid = (st', f)) :
    (st'.calls = st.calls ∨
      ∃ node agentId, idToNode nodes nid = some node ∧ node.type ≠ "trigger" ∧
        node.type ≠ "output" ∧ st'.calls = st.calls ++ [(nid, agentId)])
    ∧ (st'.results = st.results ∨
      ∃ node v, idToNode nodes nid = some node ∧ st'.results = dictSet st.results nid v)
    ∧ (∀ fp, f = some fp → fp.1 = nid ∧ st'.results = st.results) := by
  unfold execNode at h
  dsimp only at h
  split at h
  · cases h
    exact ⟨.inl rfl, .inl rfl, fun fp hfp => by cases hfp⟩
  · rename_i node hfind
    split at h
    · cases h
      exact ⟨.inl rfl, .inr ⟨node, _, hfind, rfl⟩, fun fp hfp => by cases hfp⟩
    · split at h
      · cases h
        exact ⟨.inl rfl, .inr ⟨node, _, hfind, rfl⟩, fun fp hfp => by cases hfp⟩
      · rename_i htrig hout
        split at h
        · cases h
          exact ⟨.inl rfl, .inl rfl, fun fp hfp => by cases hfp⟩
        · rename_i agentId hres
          split at h
          · cases h
            exact ⟨.inl rfl, .inl rfl, fun fp hfp => by cases hfp; exact ⟨rfl, rfl⟩⟩
          · split at h
            · split at h
              · cases h
                exact ⟨.inr ⟨node, agentId, hfind, htrig, hout, rfl⟩,
                  .inr ⟨node, _, hfind, rfl⟩, fun fp hfp => by cases hfp⟩
              · cases h
                exact ⟨.inr ⟨node, agentId, hfind, htrig, hout, rfl⟩, .inl rfl,
                  fun fp hfp => by cases hfp; exact ⟨rfl, rfl⟩⟩
            · cases h
              exact ⟨.inl rfl, .inl rfl, fun fp hfp => by cases hfp; exact ⟨rfl, rfl⟩⟩

/-- Splitting a run at a list decomposition of the order. -/
theorem runNodes_append (env : Env) (nodes : List Node) (edges : List Edge)
    (l1 l2 : List String) (st : RunState) :
    runNodes env nodes edges (l1 ++ l2) st =
      match runNodes env nodes edges l1 st with
      | (st', none) => runNodes env nodes edges l2 st'
      | (st', some f) => (st', some f) := by
  induction l1 generalizing st with
  | nil => rfl
  | cons nid rest ih =>
    rw [List.cons_append]
    show (match execNode env nodes edges st nid with
      | (st', none) => runNodes env nodes edges (rest ++ l2) st'
      | (st', some f) => (st', some f)) = _
    cases hex : execNode env nodes edges st nid with
    | mk st' f =>
      cases f with
      | none =>
        simp only [runNodes, hex, ih]
      | some fp =>
        simp only [runNodes, hex]

/-- The call-log invariant: every logged capability invocation belongs to
a node that exists and is neither a `trigger` nor an `output` node. -/
def CallsInv (nodes : List Node) (st : RunState) : Prop :=
  ∀ p ∈ st.calls, ∃ m : Node, idToNode nodes p.1 = some m ∧
    m.type ≠ "trigger" ∧ m.type ≠ "output"

theorem execNode_callsInv {env : Env} {nodes : List Node} {edges : List Edge}
    {st : RunState} {nid : String} {st' : RunState} {f : Option (String × String)}
    (h : execNode env nodes edges st nid = (st', f)) (hinv : CallsInv nodes st) :
    CallsInv nodes st' := by
  rcases (execNode_shape h).1 with hc | ⟨node, agentId, hfind, htrig, hout, hc⟩
  · intro p hp
    exact hinv p (hc ▸ hp)
  · intro p hp
    rw [hc, List.mem_append] at hp
    rcases hp with hp | hp
    · exact hinv p hp
    · rcases List.mem_singleton.1 hp with rfl
      exact ⟨node, hfind, htrig, hout⟩

theorem runNodes_callsInv {env : Env} {nodes : List Node} {edges : List Edge} :
    ∀ (order : List String) (st0 st1 : RunState) (f : Option (String × String)),
      runNodes env nodes edges order st0 = (st1, f) → CallsInv nodes st0 →
      CallsInv nodes st1 := by
  intro order
  induction order with
  | nil =>
    intro st0 st1 f h hinv
    cases h
    exact hinv
  | cons nid rest ih =>
    intro st0 st1 f h hinv
    rw [runNodes] at h
    cases hex : execNode env nodes edges st0 nid with
    | mk stm fo =>
      rw [hex] at h
      cases fo with
      | none => exact ih _ _ _ h (execNode_callsInv hex hinv)
      | some fp =>
        cases h
        exact execNode_callsInv hex hinv

/-! ## Claim C5: trigger and output nodes -/

/-- Claim C5: a `trigger` node never triggers a capability call and its
recorded output is the constant `payload` of its static configuration; an
`output` node never triggers a capability call and records, as `from` and
`value`, the source of the last listed edge targeting it (null when no
edge targets it) and that source's recorded output; moreover, over a whole
run, every logged capability invocation belongs to a node that is neither
a `trigger` nor an `output`. -/
theorem trigger_output_nodes_no_capability_call (env : Env) (nodes : List Node)
    (edges : List Edge) (st : RunState) (nid : String) (node : Node)
    (hfind : idToNode nodes nid = some node) :
    (node.type = "trigger" →
      execNode env nodes edges st nid =
        ({ st with results := dictSet st.results nid (triggerOutput node.data) }, none))
    ∧ (node.type = "output" →
      execNode env nodes edges st nid =
        ({ st with results := dictSet st.results nid (outputNodeOutput (prevIdsOf edges nid) (prevResultOf st.results edges nid)) }, none))
    ∧ ∀ p ∈ (runWorkflow env nodes edges).1.calls, ∃ m : Node,
        idToNode nodes p.1 = some m ∧ m.type ≠ "trigger" ∧ m.type ≠ "output" := by
  refine ⟨fun htrig => ?_, fun hout => ?_, ?_⟩
  · simp [execNode, hfind, htrig]
  · simp [execNode, hfind, hout]
  · cases hrun : runWorkflow env nodes edges with
    | mk st1 f =>
      exact runNodes_callsInv _ _ _ _ hrun (fun p hp => by cases hp)

/-- Witness for C5 at the scenario workflow: stepping `t1` from the
initial state records its constant payload and makes no capability
call. -/
theorem trigger_output_nodes_no_capability_call_witness :
    execNode envDeny sNodes sEdges initState "t1" =
      ({ initState with results := dictSet initState.results "t1" (triggerOutput [("payload", .obj [("x", .num 1)])]) }, none) :=
  (trigger_output_nodes_no_capability_call envDeny sNodes sEdges initState "t1"
    ⟨"t1", "trigger", [("payload", .obj [("x", .num 1)])]⟩ rfl).1 rfl

/-! ## Claim C6: a node failure aborts the run -/

/-- Claim C6: if the capability invocation of the node `nid` fails, the
run's outcome is exactly the failure attributed to `nid`, the results
recorded by the already-completed prefix are intact at the moment of
abort, and no node after `nid` in the compiled order is dispatched (the
outcome does not depend on what follows `nid` in the order). -/
theorem node_failure_aborts_run (env : Env) (nodes : List Node) (edges : List Edge)
    (pre post : List String) (nid : String) (st' stf : RunState) (fp : String × String)
    (horder : topoOrder nodes edges = pre ++ nid :: post)
    (hpre : runNodes env nodes edges pre initState = (st', none))
    (hfail : execNode env nodes edges st' nid = (stf, some fp)) :
    runWorkflow env nodes edges = (stf, some fp)
    ∧ fp.1 = nid
    ∧ stf.results = st'.results
    ∧ ∀ post' : List String,
        runNodes env nodes edges (pre ++ nid :: post') initState = (stf, some fp) := by
  have hall : ∀ post' : List String,
      runNodes env nodes edges (pre ++ nid :: post') initState = (stf, some fp) := by
    intro post'
    rw [runNodes_append, hpre]
    show runNodes env nodes edges (nid :: post') st' = _
    rw [runNodes, hfail]
  have hattr := (execNode_shape hfail).2.2 fp rfl
  exact ⟨by rw [runWorkflow, horder]; exact hall post, hattr.1, hattr.2, hall⟩

/-- Witness for C6: in the scenario workflow with a raising
`carrier_vetting` agent, the run aborts at `n1` with `t1`'s output
intact and `o1` never dispatched. -/
theorem node_failure_aborts_run_witness :
    runWorkflow envAgentFails sNodes sEdges =
      (⟨[("t1", .obj [("payload", .obj [("x", .num 1)])])],
        [("n1", "carrier_vetting")]⟩, some ("n1", "boom")) :=
  (node_failure_aborts_run envAgentFails sNodes sEdges ["t1"] ["o1"] "n1"
    ⟨[("t1", .obj [("payload", .obj [("x", .num 1)])])], []⟩
    ⟨[("t1", .obj [("payload", .obj [("x", .num 1)])])], [("n1", "carrier_vetting")]⟩
    ("n1", "boom") rfl rfl rfl).1

/-! ## Claim C10: result keys are node ids -/

theorem execNode_keysInv {env : Env} {nodes : List Node} {edges : List Edge}
    {st : RunState} {nid : String} {st' : RunState} {f : Option (String × String)}
    (h : execNode env nodes edges st nid = (st', f))
    (hinv : ∀ k ∈ st.results.map Prod.fst, k ∈ nodes.map Node.id) :
    ∀ k ∈ st'.results.map Prod.fst, k ∈ nodes.map Node.id := by
  rcases (execNode_shape h).2.1 with hr | ⟨node, v, hfind, hr⟩
  · intro k hk
    exact hinv k (hr ▸ hk)
  · intro k hk
    rw [hr] at hk
    rcases dictSet_keys hk with rfl | hk'
    · rcases idToNode_some hfind with ⟨hmem, hid⟩
      exact hid ▸ List.mem_map_of_mem Node.id hmem
    · exact hinv k hk'

theorem runNodes_keysInv {env : Env} {nodes : List Node} {edges : List Edge} :
    ∀ (order : List String) (st0 st1 : RunState) (f : Option (String × String)),
      runNodes env nodes edges order st0 = (st1, f) →
      (∀ k ∈ st0.results.map Prod.fst, k ∈ nodes.map Node.id) →
      ∀ k ∈ st1.results.map Prod.fst, k ∈ nodes.map Node.id := by
  intro order
  induction order with
  | nil =>
    intro st0 st1 f h hinv
    cases h
    exact hinv
  | cons nid rest ih =>
    intro st0 st1 f h hinv
    rw [runNodes] at h
    cases hex : execNode env nodes edges st0 nid with
    | mk stm fo =>
      rw [hex] at h
      cases fo with
      | none => exact ih _ _ _ h (execNode_keysInv hex hinv)
      | some fp =>
        cases h
        exact execNode_keysInv hex hinv

/-- Claim C10: every key of a completed run's results mapping is the id of
a node of the workflow — ids appended to the compiled order that do not
identify a node are skipped by the dispatcher and never reach the
RunResult. -/
theorem run_results_keys_are_node_ids (env : Env) (nodes : List Node)
    (edges : List Edge) (st : RunState)
    (h : runWorkflow env nodes edges = (st, none)) :
    ∀ k ∈ st.results.map Prod.fst, k ∈ nodes.map Node.id :=
  runNodes_keysInv _ _ _ _ h (fun k hk => by cases hk)

/-- Witness for C10 at the scenario run: the key `o1` of the completed
run's results is one of the workflow's node ids. -/
theorem run_results_keys_are_node_ids_witness :
    "o1" ∈ sNodes.map Node.id :=
  run_results_keys_are_node_ids envDeny sNodes sEdges
    ⟨[("t1", .obj [("payload", .obj [("x", .num 1)])]),
      ("n1", .str "vetted"),
      ("o1", .obj [("from", .str "n1"), ("value", .str "vetted")])],
     [("n1", "carrier_vetting")]⟩ rfl "o1" (by decide)

/-! ## Structural analysis of the graph compiler -/

/-- The single-list view of the edge pass: since the pass appends every
new id to both `order` and `seen`, the pair state stays equal and the pass
is this recursion on one list. -/
def passB (S : List String) : List Edge → List String
  | [] => S
  | e :: es => passB (if e.source ∈ S ∧ e.target ∉ S then S ++ [e.target] else S) es

theorem foldl_topoStep_pair :
    ∀ (es : List Edge) (S : List String),
      es.foldl topoStep (S, S) = (passB S es, passB S es) := by
  intro es
  induction es with
  | nil => intro S; rfl
  | cons e rest ih =>
    intro S
    rw [List.foldl_cons, passB]
    by_cases hc : e.source ∈ S ∧ e.target ∉ S
    · rw [if_pos hc]
      have hstep : topoStep (S, S) e = (S ++ [e.target], S ++ [e.target]) := by
        rw [topoStep, if_pos hc]
      rw [hstep, ih]
    · rw [if_neg hc]
      have hstep : topoStep (S, S) e = (S, S) := by
        rw [topoStep, if_neg hc]
      rw [hstep, ih]

theorem topoOrder_eq (nodes : List Node) (edges : List Edge) :
    topoOrder nodes edges = passB (seedOf nodes edges) edges ++
      (nodes.filter (fun n => n.id ∉ passB (seedOf nodes edges) edges)).map Node.id := by
  rw [topoOrder, foldl_topoStep_pair]

/-- Number of edges targeting `x` (the in-degree the compiler computes). -/
def tcount (edges : List Edge) (x : String) : Nat :=
  edges.countP (fun e => decide (e.target = x))

theorem computeIndeg_gen :
    ∀ (es : List Edge) (l : List (String × Nat)),
      es.foldl (fun ind e => ind.map (fun p => if p.1 = e.target then (p.1, p.2 + 1) else p)) l
        = l.map (fun p => (p.1, p.2 + tcount es p.1)) := by
  intro es
  induction es with
  | nil =>
    intro l
    simp [tcount]
  | cons e rest ih =>
    intro l
    rw [List.foldl_cons, ih, List.map_map]
    apply List.map_congr_left
    intro p _
    simp only [Function.comp_apply]
    by_cases hp : p.1 = e.target
    · simp only [if_pos hp, tcount, List.countP_cons, hp, decide_eq_true_eq]
      simp [Prod.ext_iff]
      omega
    · have hp' : ¬ e.target = p.1 := fun hh => hp hh.symm
      simp only [if_neg hp, tcount, List.countP_cons, hp']
      simp

theorem computeIndeg_eq (nodes : List Node) (edges : List Edge) :
    computeIndeg nodes edges = nodes.map (fun n => (n.id, tcount edges n.id)) := by
  rw [computeIndeg, computeIndeg_gen, List.map_map]
  apply List.map_congr_left
  intro n _
  simp

theorem mem_seedOf {nodes : List Node} {edges : List Edge} {x : String} :
    x ∈ seedOf nodes edges ↔ ∃ n ∈ nodes, n.id = x ∧ tcount edges x = 0 := by
  rw [seedOf, computeIndeg_eq]
  simp only [List.mem_map, List.mem_filter]
  constructor
  · rintro ⟨p, ⟨⟨n, hn, rfl⟩, hz⟩, rfl⟩
    exact ⟨n, hn, rfl, by simpa using hz⟩
  · rintro ⟨n, hn, rfl, hz⟩
    exact ⟨(n.id, tcount edges n.id), ⟨⟨n, hn, rfl⟩, by simpa using hz⟩, rfl⟩

theorem targets_not_mem_seed {nodes : List Node} {edges : List Edge} {t : String}
    (ht : t ∈ edges.map Edge.target) : t ∉ seedOf nodes edges := by
  intro hmem
  rcases mem_seedOf.1 hmem with ⟨n, _, _, hz⟩
  rcases List.mem_map.1 ht with ⟨e, he, rfl⟩
  have hpos : 0 < tcount edges e.target :=
    List.countP_pos_iff.2 ⟨e, he, by simp⟩
  omega

theorem seedOf_sublist (nodes : List Node) (edges : List Edge) :
    (seedOf nodes edges).Sublist (nodes.map Node.id) := by
  rw [seedOf, computeIndeg_eq]
  have h1 := (List.filter_sublist (l := nodes.map (fun n => (n.id, tcount edges n.id)))
    (p := fun p => p.2 = 0)).map Prod.fst
  rwa [List.map_map] at h1

theorem passB_mono {x : String} : ∀ {es : List Edge} {S : List String},
    x ∈ S → x ∈ passB S es := by
  intro es
  induction es with
  | nil => intro S h; exact h
  | cons e rest ih =>
    intro S h
    rw [passB]
    by_cases hc : e.source ∈ S ∧ e.target ∉ S
    · rw [if_pos hc]; exact ih (List.mem_append_left _ h)
    · rw [if_neg hc]; exact ih h

theorem passB_mem {x : String} : ∀ {es : List Edge} {S : List String},
    x ∈ passB S es → x ∈ S ∨ x ∈ es.map Edge.target := by
  intro es
  induction es with
  | nil => intro S h; exact .inl h
  | cons e rest ih =>
    intro S h
    rw [passB] at h
    by_cases hc : e.source ∈ S ∧ e.target ∉ S
    · rw [if_pos hc] at h
      rcases ih h with h' | h'
      · rcases List.mem_append.1 h' with h'' | h''
        · exact .inl h''
        · exact .inr (by simp [List.mem_singleton.1 h''])
      · exact .inr (by simp [h'])
    · rw [if_neg hc] at h
      rcases ih h with h' | h'
      · exact .inl h'
      · exact .inr (by simp [h'])

theorem passB_nodup : ∀ {es : List Edge} {S : List String},
    S.Nodup → (passB S es).Nodup := by
  intro es
  induction es with
  | nil => intro S h; exact h
  | cons e rest ih =>
    intro S h
    rw [passB]
    by_cases hc : e.source ∈ S ∧ e.target ∉ S
    · rw [if_pos hc]
      exact ih (by simp [List.nodup_append, h, hc.2])
    · rw [if_neg hc]; exact ih h

/-! ## Claim C8: totality of the compiled order -/

/-- Claim C8 (amended): over nodes with pairwise-distinct ids, the
compiled order contains each node id exactly once (it is duplicate-free
and covers every node id), and every entry of the order is either a node
id or an id referenced as an edge target — the pass may thus append
target ids that are not in the node set, so the order is not limited to
node ids. -/
theorem topo_order_total_amended (nodes : List Node) (edges : List Edge)
    (hn : (nodes.map Node.id).Nodup) :
    (topoOrder nodes edges).Nodup
    ∧ (∀ nid ∈ nodes.map Node.id, nid ∈ topoOrder nodes edges)
    ∧ (∀ x ∈ topoOrder nodes edges, x ∈ nodes.map Node.id ∨ x ∈ edges.map Edge.target) := by
  have hseed : (seedOf nodes edges).Nodup := (seedOf_sublist nodes edges).nodup hn
  have hP : (passB (seedOf nodes edges) edges).Nodup := passB_nodup hseed
  have hF : ((nodes.filter (fun n => n.id ∉ passB (seedOf nodes edges) edges)).map
      Node.id).Nodup := by
    have h1 := (List.filter_sublist
      (l := nodes) (p := fun n => n.id ∉ passB (seedOf nodes edges) edges)).map Node.id
    exact h1.nodup hn
  have hdisj : ∀ x ∈ passB (seedOf nodes edges) edges,
      x ∉ (nodes.filter (fun n => n.id ∉ passB (seedOf nodes edges) edges)).map Node.id := by
    intro x hx hmem
    rcases List.mem_map.1 hmem with ⟨n, hn', rfl⟩
    have := (List.mem_filter.1 hn').2
    simp only [decide_not, Bool.not_eq_true', decide_eq_false_iff_not] at this
    exact this hx
  rw [topoOrder_eq]
  refine ⟨List.Nodup.append hP hF hdisj, ?_, ?_⟩
  · intro nid hnid
    by_cases hmem : nid ∈ passB (seedOf nodes edges) edges
    · exact List.mem_append_left _ hmem
    · rcases List.mem_map.1 hnid with ⟨n, hn', rfl⟩
      refine List.mem_append_right _ (List.mem_map_of_mem Node.id ?_)
      exact List.mem_filter.2 ⟨hn', by simpa using hmem⟩
  · intro x hx
    rcases List.mem_append.1 hx with hx' | hx'
    · rcases passB_mem hx' with hx'' | hx''
      · exact .inl ((seedOf_sublist nodes edges).subset hx'')
      · exact .inr hx''
    · rcases List.mem_map.1 hx' with ⟨n, hn', rfl⟩
      exact .inl (List.mem_map_of_mem Node.id (List.mem_filter.1 hn').1)

/-- Witness for C8's amended theorem at the scenario workflow: `n1`
appears in the compiled order. -/
theorem topo_order_total_amended_witness :
    "n1" ∈ topoOrder sNodes sEdges :=
  (topo_order_total_amended sNodes sEdges (by decide)).2.1 "n1" (by decide)

/-- A single node `a` with an edge to the unknown id `x`. -/
def uNodes : List Node := [⟨"a", "trigger", []⟩]

/-- The single edge of the unknown-target workflow. -/
def uEdges : List Edge := [⟨"a", "x"⟩]

/-- Counterexample to C8 as stated: with one node `a` and one edge
`a → x` to an id that is not in the node set, the compiled order is
`[a, x]` — it contains the non-node id `x`, so the order is not exactly
the node set. -/
theorem topo_order_unknown_id_counterexample :
    topoOrder uNodes uEdges = ["a", "x"]
    ∧ "x" ∉ uNodes.map Node.id
    ∧ (uNodes.map Node.id).Nodup := by
  refine ⟨by decide, by decide, by decide⟩

/-! ## Claim C2: does the order respect acyclic dependencies? -/

theorem passB_progressive_eq :
    ∀ (es : List Edge) (S : List String),
      (es.map Edge.target).Nodup →
      (∀ t ∈ es.map Edge.target, t ∉ S) →
      progressiveB S es = true →
      passB S es = S ++ es.map Edge.target := by
  intro es
  induction es with
  | nil => intro S _ _ _; simp [passB]
  | cons e rest ih =>
    intro S hnd hni hp
    rw [progressiveB, Bool.and_eq_true] at hp
    have hs : e.source ∈ S := of_decide_eq_true hp.1
    have hts : e.target ∉ S := hni e.target (by simp)
    rw [List.map_cons, List.nodup_cons] at hnd
    have hni' : ∀ t ∈ rest.map Edge.target, t ∉ S ++ [e.target] := by
      intro t htm
      simp only [List.mem_append, List.mem_singleton]
      rintro (h' | rfl)
      · exact hni t (by simp [htm]) h'
      · exact hnd.1 htm
    rw [passB, if_pos ⟨hs, hts⟩, ih (S ++ [e.target]) hnd.2 hni' hp.2]
    simp

theorem ordered_of_progressive :
    ∀ (es : List Edge) (S : List String),
      (es.map Edge.target).Nodup →
      (∀ t ∈ es.map Edge.target, t ∉ S) →
      progressiveB S es = true →
      ∀ e ∈ es, (S ++ es.map Edge.target).indexOf e.source <
        (S ++ es.map Edge.target).indexOf e.target := by
  intro es
  induction es with
  | nil => intro S _ _ _ e he; cases he
  | cons e0 rest ih =>
    intro S hnd hni hp e he
    rw [progressiveB, Bool.and_eq_true] at hp
    have hs0 : e0.source ∈ S := of_decide_eq_true hp.1
    have ht0 : e0.target ∉ S := hni e0.target (by simp)
    rw [List.map_cons, List.nodup_cons] at hnd
    rcases List.mem_cons.1 he with rfl | he'
    · rw [List.map_cons, List.indexOf_append_of_mem hs0,
        List.indexOf_append_of_not_mem ht0, List.indexOf_cons_self]
      have h1 : List.indexOf e.source S < S.length := List.indexOf_lt_length.2 hs0
      omega
    · have hni' : ∀ t ∈ rest.map Edge.target, t ∉ S ++ [e0.target] := by
        intro t htm
        simp only [List.mem_append, List.mem_singleton]
        rintro (h' | rfl)
        · exact hni t (by simp [htm]) h'
        · exact hnd.1 htm
      have hmain := ih (S ++ [e0.target]) hnd.2 hni' hp.2 e he'
      rw [List.append_assoc, List.singleton_append] at hmain
      rw [List.map_cons]
      exact hmain

/-- Claim C2 (amended): when every node is the target of at most one edge
(pairwise-distinct edge targets) and the edge list is written in
dependency order — each edge's source is already placed, i.e. it is a
zero-in-degree node or the target of an earlier edge — the compiled order
places every edge's source strictly before its target.  (For general
acyclic edge sets the property fails; see the counterexample.) -/
theorem topo_order_respects_progressive_edges (nodes : List Node) (edges : List Edge)
    (ht : (edges.map Edge.target).Nodup)
    (hp : progressiveB (seedOf nodes edges) edges = true) :
    ∀ e ∈ edges, (topoOrder nodes edges).indexOf e.source <
      (topoOrder nodes edges).indexOf e.target := by
  intro e he
  have hni : ∀ t ∈ edges.map Edge.target, t ∉ seedOf nodes edges :=
    fun t htm => targets_not_mem_seed htm
  have hmain := ordered_of_progressive edges (seedOf nodes edges) ht hni hp e he
  rw [topoOrder_eq, passB_progressive_eq edges (seedOf nodes edges) ht hni hp]
  have htgt : e.target ∈ seedOf nodes edges ++ edges.map Edge.target :=
    List.mem_append_right _ (List.mem_map_of_mem Edge.target he)
  have hsrc : e.source ∈ seedOf nodes edges ++ edges.map Edge.target := by
    have h2 : List.indexOf e.target (seedOf nodes edges ++ edges.map Edge.target) <
        (seedOf nodes edges ++ edges.map Edge.target).length :=
      List.indexOf_lt_length.2 htgt
    exact List.indexOf_lt_length.1 (by omega)
  rw [List.indexOf_append_of_mem hsrc, List.indexOf_append_of_mem htgt]
  exact hmain

/-- Witness for C2's amended theorem at the scenario chain
`t1 → n1 → o1`: `t1` precedes `n1` in the compiled order. -/
theorem topo_order_respects_progressive_edges_witness :
    (topoOrder sNodes sEdges).indexOf "t1" < (topoOrder sNodes sEdges).indexOf "n1" :=
  topo_order_respects_progressive_edges sNodes sEdges (by decide) (by decide)
    ⟨"t1", "n1"⟩ (by decide)

/-- Nodes of the acyclic counterexample workflow. -/
def cNodes : List Node :=
  [⟨"u", "custom", []⟩, ⟨"v", "custom", []⟩, ⟨"s", "custom", []⟩, ⟨"t", "custom", []⟩]

/-- Edges of the acyclic counterexample workflow: `u → t`, `s → t`,
`v → s`. -/
def cEdges : List Edge := [⟨"u", "t"⟩, ⟨"s", "t"⟩, ⟨"v", "s"⟩]

/-- Counterexample to C2 as stated: the edge set `u → t`, `s → t`,
`v → s` is acyclic over pairwise-distinct node ids and all endpoints are
nodes, yet the compiled order is `[u, v, t, s]`, placing the target `t`
of the edge `s → t` before its source `s`. -/
theorem topo_order_acyclic_counterexample :
    acyclicB cEdges = true
    ∧ (cNodes.map Node.id).Nodup
    ∧ (⟨"s", "t"⟩ : Edge) ∈ cEdges
    ∧ "s" ∈ cNodes.map Node.id
    ∧ "t" ∈ cNodes.map Node.id
    ∧ topoOrder cNodes cEdges = ["u", "v", "t", "s"]
    ∧ ¬ (topoOrder cNodes cEdges).indexOf "s" < (topoOrder cNodes cEdges).indexOf "t" := by
  refine ⟨by decide, by decide, by decide, by decide, by decide, by decide, by decide⟩

end Orchestrator
